import Mathlib

/-!
# Verification of the temphums_go utilities

Shallow embedding of the three Go command-line utilities in this repository:

* `main.go` (CSV variant) — hourly aggregation of temperature/humidity records
  with a MongoDB pipeline `$match → $addFields(localHour) → $group → $sort`,
  exported to a CSV file `measurements_<date>.csv`;
* the console aggregation variant (same pipeline, printed to stdout);
* `TransferRecs` / `TransferRecords` — range transfer of records between two
  collections, by plain `InsertMany` or by unordered bulk upsert keyed on `_id`.

Timestamps are modelled as `Int` seconds since the Unix epoch (BSON dates are
instants; the unit does not affect any verified property, only the constant
3600 used for hour bucketing).  Numeric fields are modelled as `ℚ`.  The
MongoDB pipeline operators (`$gte`/`$lt` range match, `$dateToString` with
timezone `America/Chicago`, `$round` with its documented round-half-to-even
behaviour, `$avg`, `$group`, `$sort` on strings) and the behaviour of the
`godotenv` library (`Load` does not override existing variables, `Overload`
does) are embedded following their documented semantics, since the Go code
delegates those operations to the database/library.
-/

/-- Opaque record identifier (`_id`). -/
abbrev OID := Nat

/-- One sensor reading, as read from the `temphums` collection: at least
`updatedAt` (timestamp), `temperature` and `humidity` (numbers). -/
structure Record where
  oid : OID
  updatedAt : Int
  temperature : ℚ
  humidity : ℚ
deriving DecidableEq, Repr

/-- The `$gte start, $lt end` filter on `updatedAt` used by both the transfer
functions and the aggregation `$match` stage. -/
def inRange (start stop t : Int) : Bool := start ≤ t && t < stop

/-- The record selection performed by `Find` (respectively `$match`) with the
filter `{updatedAt: {$gte: start, $lt: stop}}`. -/
def transferSelect (start stop : Int) (recs : List Record) : List Record :=
  recs.filter (fun r => inRange start stop r.updatedAt)

/-! ## Upsert transfer (`TransferRecords`, bulk write with upsert) -/

/-- A destination collection, as a map from `_id` to the stored document. -/
abbrev Coll := OID → Option Record

/-- Applying one `UpdateOneModel` with filter `{_id: id}`, update
`{$set: record}` and `upsert: true`: the document under that `_id` is replaced
(or inserted) with the given record. -/
def applyUpsert (dest : Coll) (m : OID × Record) : Coll :=
  fun k => if k = m.1 then some m.2 else dest k

/-- Applying a whole bulk write of upsert models. -/
def applyBulk (dest : Coll) (ms : List (OID × Record)) : Coll :=
  ms.foldl applyUpsert dest

/-- The list of `UpdateOneModel`s built by `TransferRecords`: one upsert per
record, keyed on the record's own `_id`. -/
def upsertModels (records : List Record) : List (OID × Record) :=
  records.map (fun r => (r.oid, r))

/-- Result of one run of a transfer utility: the destination state, the list
of write calls issued (each bulk write as one entry), and the log message. -/
structure UpsertRun where
  dest : Coll
  writes : List (List (OID × Record))
  msg : String

/-- One run of `TransferRecords`: select the records in the date range, and if
any matched, issue a single unordered bulk write of upsert models; otherwise
log that no records were found and perform no write. -/
def transferRecordsRun (start stop : Int) (src : List Record) (dest : Coll) :
    UpsertRun :=
  let records := transferSelect start stop src
  if records.length > 0 then
    { dest := applyBulk dest (upsertModels records)
      writes := [upsertModels records]
      msg := "Successfully transferred " ++ toString records.length ++ " records from 2024" }
  else
    { dest := dest, writes := [], msg := "No records found for the year 2021" }

/-! ## Insert transfer (`TransferRecs`, plain `InsertMany`) -/

/-- Result of one run of `TransferRecs`: destination contents (a plain list of
documents, appended to by `InsertMany`), write calls, and log message. -/
structure InsertRun where
  dest : List Record
  writes : List (List Record)
  msg : String

/-- One run of `TransferRecs`: select the records in the date range, and if any
matched, issue a single `InsertMany`; otherwise log and perform no write. -/
def transferRecsRun (start stop : Int) (src : List Record) (dest : List Record) :
    InsertRun :=
  let records := transferSelect start stop src
  if records.length > 0 then
    { dest := dest ++ records
      writes := [records]
      msg := "Successfully transferred " ++ toString records.length ++ " records from 2023" }
  else
    { dest := dest, writes := [], msg := "No records found for the year 2023" }

/-! ## Configuration loading (`godotenv.Load` then `godotenv.Overload`) -/

/-- The process environment: a partial map from variable names to values. -/
abbrev Env := String → Option String

/-- Lookup in a parsed env file.  `godotenv` parses a file into a map in which
a later line for the same key overrides an earlier one, so lookup returns the
last matching entry. -/
def fileLookup (file : List (String × String)) (k : String) : Option String :=
  file.foldl (fun acc kv => if kv.1 = k then some kv.2 else acc) none

/-- `godotenv.Load`: sets each variable from the file only when it is not
already present in the process environment. -/
def godotenvLoad (e : Env) (file : List (String × String)) : Env :=
  fun k => match e k with
    | some v => some v
    | none => fileLookup file k

/-- `godotenv.Overload`: sets every variable from the file, overriding any
value already present in the process environment. -/
def godotenvOverload (e : Env) (file : List (String × String)) : Env :=
  fun k => match fileLookup file k with
    | some v => some v
    | none => e k

/-- The configuration-loading sequence shared by all three utilities:
`godotenv.Load(".env")` followed by `godotenv.Overload(".env.local")`. -/
def configLoad (e : Env) (base locl : List (String × String)) : Env :=
  godotenvOverload (godotenvLoad e base) locl

/-- `os.Getenv`: the empty string stands for an absent variable. -/
def getenvD (e : Env) (k : String) : String := (e k).getD ""

/-! ## Program prefixes: required connection strings

Each utility, after configuration loading, reads its connection-string
variables and calls `log.Fatal` (non-zero exit, diagnostic message) when one
is empty, before connecting.  The model records the sequence of external
actions performed and the fatal message, if any. -/

/-- External actions a utility can perform, in order. -/
inductive ExtAction where
  | connect : String → ExtAction
  | query : ExtAction
  | write : ExtAction
deriving DecidableEq, Repr

/-- Outcome of the environment-check prefix of a run: actions performed so
far, and `some msg` when the process exited fatally with that diagnostic. -/
structure Prefix_ where
  actions : List ExtAction
  fatal : Option String
deriving Repr

/-- The aggregation utilities (`main.go`, console variant): read `MONGO_URI`,
fatally abort when it is empty, otherwise connect and run the pipeline. -/
def aggMainPrefix (e : Env) : Prefix_ :=
  let uri := getenvD e "MONGO_URI"
  if uri = "" then
    { actions := [], fatal := some "MONGO_URI not set in environment" }
  else
    { actions := [ExtAction.connect uri, ExtAction.query, ExtAction.write], fatal := none }

/-- The transfer utilities: read `SOURCE_MONGO_URI` then `DEST_MONGO_URI`,
fatally aborting on the first empty one, before any connection. -/
def transferPrefix (e : Env) : Prefix_ :=
  let src := getenvD e "SOURCE_MONGO_URI"
  if src = "" then
    { actions := [], fatal := some "SOURCE_MONGO_URI not set in environment" }
  else
    let dst := getenvD e "DEST_MONGO_URI"
    if dst = "" then
      { actions := [], fatal := some "DEST_MONGO_URI not set in environment" }
    else
      { actions := [ExtAction.connect src, ExtAction.connect dst, ExtAction.query, ExtAction.write]
        fatal := none }

/-! ## Lemmas about the transfer models -/

/-- The last upsert model in a bulk write whose filter matches `_id = k`. -/
def lastWrite : List (OID × Record) → OID → Option Record
  | [], _ => none
  | m :: ms, k =>
    match lastWrite ms k with
    | some v => some v
    | none => if k = m.1 then some m.2 else none

theorem applyBulk_eq (dest : Coll) (ms : List (OID × Record)) (k : OID) :
    applyBulk dest ms k =
      match lastWrite ms k with
      | some v => some v
      | none => dest k := by
  induction ms generalizing dest with
  | nil => rfl
  | cons m ms ih =>
    show applyBulk (applyUpsert dest m) ms k = _
    rw [ih]
    cases h : lastWrite ms k with
    | some v => simp [lastWrite, h]
    | none =>
      simp only [lastWrite, h, applyUpsert]
      cases hk : decide (k = m.1) with
      | true => simp [of_decide_eq_true hk]
      | false => simp [of_decide_eq_false hk]

theorem applyBulk_applyBulk (dest : Coll) (ms : List (OID × Record)) :
    applyBulk (applyBulk dest ms) ms = applyBulk dest ms := by
  funext k
  rw [applyBulk_eq, applyBulk_eq]
  cases h : lastWrite ms k with
  | some v => rfl
  | none => simp [applyBulk_eq, h]

/-! ## Claim C3: range transfer selects exactly `start ≤ updatedAt < stop` -/

/-- C3: for every DateRange `[start, stop)` and every source record set, the
transfer filter selects exactly the records whose `updatedAt` satisfies
`start ≤ updatedAt < stop` (start inclusive, end exclusive), and no others. -/
theorem range_transfer_selects_half_open (start stop : Int) (recs : List Record)
    (r : Record) :
    r ∈ transferSelect start stop recs ↔
      r ∈ recs ∧ start ≤ r.updatedAt ∧ r.updatedAt < stop := by
  simp [transferSelect, List.mem_filter, inRange, Bool.and_eq_true,
    decide_eq_true_eq]

/-! ## Claim C4: the upsert transfer is idempotent -/

/-- C4: running the upsert-by-identifier transfer twice with identical input
leaves the destination collection in the same state as running it once. -/
theorem upsert_transfer_idempotent (start stop : Int) (src : List Record)
    (dest : Coll) :
    (transferRecordsRun start stop src
        (transferRecordsRun start stop src dest).dest).dest =
      (transferRecordsRun start stop src dest).dest := by
  unfold transferRecordsRun
  by_cases h : (transferSelect start stop src).length > 0
  · simp only [h, if_pos]
    exact applyBulk_applyBulk dest (upsertModels (transferSelect start stop src))
  · simp only [h, if_neg, not_false_iff]

/-! ## Claim C7: zero matching records means no write call -/

/-- C7: when the range filter matches zero records, neither transfer variant
issues any write call, the destination is unchanged, and the run reports a
zero-transferred message rather than an error. -/
theorem zero_match_no_write (start stop : Int) (src : List Record)
    (destL : List Record) (destC : Coll)
    (h : transferSelect start stop src = []) :
    transferRecsRun start stop src destL =
        { dest := destL, writes := [], msg := "No records found for the year 2023" } ∧
      transferRecordsRun start stop src destC =
        { dest := destC, writes := [], msg := "No records found for the year 2021" } := by
  constructor
  · unfold transferRecsRun
    rw [h]
    rfl
  · unfold transferRecordsRun
    rw [h]
    rfl

/-- Witness for C7 at a concrete input: one source record outside the range. -/
theorem zero_match_no_write_witness :
    transferSelect 0 10 [⟨1, 99, 1, 2⟩] = [] ∧
      transferRecsRun 0 10 [⟨1, 99, 1, 2⟩] [] =
        { dest := [], writes := [], msg := "No records found for the year 2023" } :=
  ⟨by decide,
   (zero_match_no_write 0 10 [⟨1, 99, 1, 2⟩] [] (fun _ => none) (by decide)).1⟩

/-! ## Claim C8: configuration overlay precedence -/

/-- A concrete process environment with `X` pre-set from another source. -/
def envPre : Env := fun k => if k = "X" then some "pre" else none

/-- C8 counterexample: a variable already present in the process environment
is replaced by the local override file (`godotenv.Overload`), contrary to the
claim that it keeps its pre-existing value against both files. -/
theorem config_env_not_preserved_counterexample :
    envPre "X" = some "pre" ∧
      configLoad envPre [] [("X", "local")] "X" = some "local" ∧
      ("local" : String) ≠ "pre" := by
  refine ⟨rfl, rfl, by decide⟩

/-- C8 amended: the local override file takes precedence over the base file
and over pre-existing environment variables; the base file does not override a
variable already present in the process environment; a variable in neither
file keeps its environment value. -/
theorem config_overlay_precedence (e : Env) (base locl : List (String × String))
    (k v w : String) :
    (fileLookup locl k = some v → configLoad e base locl k = some v) ∧
      (fileLookup locl k = none → e k = some w → configLoad e base locl k = some w) ∧
      (fileLookup locl k = none → e k = none →
        configLoad e base locl k = fileLookup base k) := by
  refine ⟨fun h1 => ?_, fun h1 h2 => ?_, fun h1 h2 => ?_⟩
  · simp [configLoad, godotenvOverload, h1]
  · simp [configLoad, godotenvOverload, godotenvLoad, h1, h2]
  · simp [configLoad, godotenvOverload, godotenvLoad, h1, h2]

/-- Witness for C8 amended, covering each branch at concrete inputs. -/
theorem config_overlay_precedence_witness :
    configLoad envPre [("X", "base")] [("X", "local")] "X" = some "local" ∧
      configLoad envPre [("X", "base")] [] "X" = some "pre" ∧
      configLoad (fun _ => none) [("X", "base")] [] "X" =
        fileLookup [("X", "base")] "X" :=
  ⟨(config_overlay_precedence envPre [("X", "base")] [("X", "local")] "X" "local" "pre").1
      (by rfl),
   (config_overlay_precedence envPre [("X", "base")] [] "X" "local" "pre").2.1
      (by rfl) (by rfl),
   (config_overlay_precedence (fun _ => none) [("X", "base")] [] "X" "local" "pre").2.2
      (by rfl) (by rfl)⟩

/-! ## Claim C9: missing connection string is fatal before any connection -/

/-- C9: when a required connection-string variable is absent after
configuration loading, the process terminates with a diagnostic before any
connection, query, or write action is performed. -/
theorem missing_uri_fatal_before_connect (e : Env) :
    (getenvD e "MONGO_URI" = "" →
        aggMainPrefix e =
          { actions := [], fatal := some "MONGO_URI not set in environment" }) ∧
      (getenvD e "SOURCE_MONGO_URI" = "" →
        transferPrefix e =
          { actions := [], fatal := some "SOURCE_MONGO_URI not set in environment" }) ∧
      (getenvD e "SOURCE_MONGO_URI" ≠ "" → getenvD e "DEST_MONGO_URI" = "" →
        transferPrefix e =
          { actions := [], fatal := some "DEST_MONGO_URI not set in environment" }) := by
  refine ⟨fun h => ?_, fun h => ?_, fun h1 h2 => ?_⟩
  · simp [aggMainPrefix, h]
  · simp [transferPrefix, h]
  · simp [transferPrefix, h1, h2]

/-- A concrete environment that only sets `SOURCE_MONGO_URI`. -/
def envSrcOnly : Env :=
  fun k => if k = "SOURCE_MONGO_URI" then some "mongodb://src" else none

/-- Witness for C9 at concrete environments. -/
theorem missing_uri_fatal_before_connect_witness :
    aggMainPrefix (fun _ => none) =
        { actions := [], fatal := some "MONGO_URI not set in environment" } ∧
      transferPrefix (fun _ => none) =
        { actions := [], fatal := some "SOURCE_MONGO_URI not set in environment" } ∧
      transferPrefix envSrcOnly =
        { actions := [], fatal := some "DEST_MONGO_URI not set in environment" } :=
  ⟨(missing_uri_fatal_before_connect (fun _ => none)).1 (by rfl),
   (missing_uri_fatal_before_connect (fun _ => none)).2.1 (by rfl),
   (missing_uri_fatal_before_connect envSrcOnly).2.2 (by decide) (by rfl)⟩

/-! ## Civil calendar

The aggregation pipeline's `$dateToString` with format `%Y-%m-%d %H:00:00` and
timezone `America/Chicago` is executed by MongoDB.  It is embedded here as the
standard proleptic-Gregorian civil-from-days conversion used by the server
(Howard Hinnant's algorithm), over day numbers counted from 0000-03-01 so that
all arithmetic stays in `Nat`; `0000-03-01` is day `0`, and the Unix epoch
1970-01-01 is day `719468`. -/

/-- Era (400-year cycle) of a day number. -/
def eraOf (g : Nat) : Nat := g / 146097

/-- Day of era of a day number. -/
def doeOf (g : Nat) : Nat := g % 146097

/-- Numerator used to compute the year of era. -/
def nOf (doe : Nat) : Nat := doe - doe / 1460 + doe / 36524 - doe / 146096

/-- Year of era `[0, 399]` from day of era. -/
def yoeOf (doe : Nat) : Nat := nOf doe / 365

/-- Day of (March-based) year `[0, 365]` from day of era. -/
def doyOf (doe : Nat) : Nat :=
  doe - (365 * yoeOf doe + yoeOf doe / 4 - yoeOf doe / 100)

/-- Shifted month `[0, 11]` (0 = March) from day of year. -/
def mpOf (doy : Nat) : Nat := (5 * doy + 2) / 153

/-- Day of month `[1, 31]` from day of year. -/
def dayOfDoy (doy : Nat) : Nat := doy - (153 * mpOf doy + 2) / 5 + 1

/-- Civil month `[1, 12]` from day of year. -/
def monthOfDoy (doy : Nat) : Nat :=
  if mpOf doy < 10 then mpOf doy + 3 else mpOf doy - 9

/-- Civil month of a day number. -/
def monthOfG (g : Nat) : Nat := monthOfDoy (doyOf (doeOf g))

/-- Civil day of month of a day number. -/
def dayOfG (g : Nat) : Nat := dayOfDoy (doyOf (doeOf g))

/-- Civil year of a day number (January and February belong to the year after
their March-based year). -/
def yearOfG (g : Nat) : Nat :=
  yoeOf (doeOf g) + 400 * eraOf g + (if monthOfG g ≤ 2 then 1 else 0)

/-- Monotonicity of `x ↦ x - x / 1460`. -/
theorem sub_div_1460_mono {a b : Nat} (h : a ≤ b) : a - a / 1460 ≤ b - b / 1460 := by
  omega

theorem yoeOf_le (doe : Nat) (h : doe ≤ 146096) : yoeOf doe ≤ 399 := by
  unfold yoeOf nOf
  omega

theorem nOf_le_self (doe : Nat) : nOf doe ≤ doe := by
  have h1 : doe / 36524 ≤ doe / 1460 :=
    Nat.div_le_div_left (by norm_num) (by norm_num)
  unfold nOf
  omega

theorem yoeOf_le_div (doe : Nat) : yoeOf doe ≤ doe / 365 :=
  Nat.div_le_div_right (nOf_le_self doe)

/-- The quarter of the year of era never exceeds the quadrennium count. -/
theorem yoeOf_div4_le (doe : Nat) : yoeOf doe / 4 ≤ doe / 1460 := by
  have h1 : yoeOf doe / 4 ≤ doe / 365 / 4 :=
    Nat.div_le_div_right (yoeOf_le_div doe)
  have h2 : doe / 365 / 4 = doe / 1460 := by
    rw [Nat.div_div_eq_div_mul]
  omega

/-- The century count of the era is dominated by the century part of the year
of era (key inequality of Hinnant's algorithm). -/
theorem div_36524_le_yoeOf_div100 (doe : Nat) (h : doe ≤ 146095) :
    doe / 36524 ≤ yoeOf doe / 100 := by
  have hE3 : doe / 36524 ≤ 3 := by omega
  have hmul : 36524 * (doe / 36524) ≤ doe := Nat.mul_div_le doe 36524
  have hmono : 36524 * (doe / 36524) - (36524 * (doe / 36524)) / 1460 ≤ doe - doe / 1460 :=
    sub_div_1460_mono hmul
  have hf : doe / 146096 = 0 := by omega
  have hnum : 36500 * (doe / 36524) ≤ nOf doe := by
    unfold nOf
    omega
  have hyoe : 36500 * (doe / 36524) / 365 ≤ yoeOf doe := by
    exact Nat.div_le_div_right hnum
  have h100 : 36500 * (doe / 36524) / 365 = 100 * (doe / 36524) := by
    omega
  omega

/-- Hinnant key fact: the day-of-era of March 1 of the computed year of era is
at most the given day of era (so the day-of-year subtraction is exact). -/
theorem yearStart_le_doe (doe : Nat) (h : doe ≤ 146096) :
    365 * yoeOf doe + yoeOf doe / 4 - yoeOf doe / 100 ≤ doe := by
  by_cases hend : doe = 146096
  · subst hend
    decide
  · have hlt : doe ≤ 146095 := by omega
    have h365 : 365 * yoeOf doe ≤ nOf doe := by
      have := Nat.mul_div_le (nOf doe) 365
      unfold yoeOf
      omega
    have hb := yoeOf_div4_le doe
    have hc := div_36524_le_yoeOf_div100 doe hlt
    have hf : doe / 146096 = 0 := by omega
    unfold nOf at h365
    omega

/-- Upper bound on the day of year (366 suffices for all later bounds). -/
theorem doyOf_le (doe : Nat) (h : doe ≤ 146096) : doyOf doe ≤ 366 := by
  by_cases hend : doe = 146096
  · subst hend
    decide
  · have hlt : doe ≤ 146095 := by omega
    have hf : doe / 146096 = 0 := by omega
    have hE3 : doe / 36524 ≤ 3 := by omega
    -- lower bound on the quadrennium part of the year of era
    have hg100 : doe / 1460 ≤ 100 := by omega
    have hnlo : 1459 * (doe / 1460) ≤ nOf doe := by
      unfold nOf
      omega
    have hq : 1459 * (doe / 1460) / 365 ≤ yoeOf doe := Nat.div_le_div_right hnlo
    have hq4 : 4 * (doe / 1460) ≤ yoeOf doe + 1 := by omega
    have hb : doe / 1460 ≤ yoeOf doe / 4 + 1 := by omega
    -- upper bound on the century part of the year of era
    have hc1 : yoeOf doe / 100 ≤ doe / 365 / 100 :=
      Nat.div_le_div_right (yoeOf_le_div doe)
    have hc2 : doe / 365 / 100 = doe / 36500 := by
      rw [Nat.div_div_eq_div_mul]
    have hc : yoeOf doe / 100 ≤ doe / 36524 + 1 := by omega
    -- lower bound on 365 * yoe
    have h365 : nOf doe ≤ 365 * yoeOf doe + 364 := by
      have h1 := Nat.div_add_mod (nOf doe) 365
      have h2 : nOf doe % 365 < 365 := Nat.mod_lt _ (by norm_num)
      unfold yoeOf
      omega
    unfold doyOf nOf at *
    omega

theorem nOf_mono {d1 d2 : Nat} (h : d1 ≤ d2) (h146 : d2 ≤ 146096) :
    nOf d1 ≤ nOf d2 := by
  by_cases hend : d2 = 146096
  · subst hend
    by_cases h1e : d1 = 146096
    · subst h1e
      exact le_refl _
    · have hle : d1 ≤ 146095 := by omega
      have hm := sub_div_1460_mono hle
      have hf1 : d1 / 146096 = 0 := by omega
      have hE1 : d1 / 36524 ≤ 3 := by omega
      have hval : nOf 146096 = 145999 := by decide
      unfold nOf at *
      omega
  · have hlt : d2 ≤ 146095 := by omega
    have hm := sub_div_1460_mono h
    have hf1 : d1 / 146096 = 0 := by omega
    have hf2 : d2 / 146096 = 0 := by omega
    unfold nOf
    omega

theorem yoeOf_mono {d1 d2 : Nat} (h : d1 ≤ d2) (h146 : d2 ≤ 146096) :
    yoeOf d1 ≤ yoeOf d2 :=
  Nat.div_le_div_right (nOf_mono h h146)

theorem doeOf_le (g : Nat) : doeOf g ≤ 146096 := by
  unfold doeOf
  omega

theorem mpOf_le (doy : Nat) (h : doy ≤ 366) : mpOf doy ≤ 11 := by
  unfold mpOf
  omega

theorem dayOfDoy_bounds (doy : Nat) : 1 ≤ dayOfDoy doy ∧ dayOfDoy doy ≤ 31 := by
  unfold dayOfDoy mpOf
  omega

theorem monthOfDoy_bounds (doy : Nat) (h : doy ≤ 366) :
    1 ≤ monthOfDoy doy ∧ monthOfDoy doy ≤ 12 := by
  have := mpOf_le doy h
  unfold monthOfDoy
  split_ifs <;> omega

/-- Numeric encoding of a civil date, ordered like the formatted string. -/
def encodeDate (g : Nat) : Nat := (yearOfG g * 100 + monthOfG g) * 100 + dayOfG g

/-- Core of the strict monotonicity of the date encoding: once the day number
is split into era, year of era and day of year, the encoded date grows along
the lexicographic order of those components. -/
theorem encode_pair_lt (Y1 Y2 M1 M2 D1 D2 : Nat) (hM1 : M1 ≤ 99) (hD1 : D1 ≤ 99)
    (hc : Y1 < Y2 ∨ (Y1 = Y2 ∧ M1 < M2) ∨ (Y1 = Y2 ∧ M1 = M2 ∧ D1 < D2)) :
    (Y1 * 100 + M1) * 100 + D1 < (Y2 * 100 + M2) * 100 + D2 := by
  rcases hc with h | ⟨h1, h2⟩ | ⟨h1, h2, h3⟩ <;> omega

/-- Core of the strict monotonicity of the date encoding: once the day number
is split into era, year of era, day of year, shifted month and month start,
the encoded date grows along the lexicographic order of the components. -/
theorem encode_mono_core (e1 e2 yoe1 yoe2 doy1 doy2 mp1 mp2 q1 q2 A1 A2 M1 M2 : Nat)
    (hy1 : yoe1 ≤ 399)
    (hm1a : 153 * mp1 ≤ 5 * doy1 + 2) (hm1b : 5 * doy1 + 2 < 153 * mp1 + 153)
    (hm2a : 153 * mp2 ≤ 5 * doy2 + 2) (hm2b : 5 * doy2 + 2 < 153 * mp2 + 153)
    (hq1a : 5 * q1 ≤ 153 * mp1 + 2) (hq1b : 153 * mp1 + 2 < 5 * q1 + 5)
    (hq2a : 5 * q2 ≤ 153 * mp2 + 2) (hq2b : 153 * mp2 + 2 < 5 * q2 + 5)
    (hdoy1 : doy1 ≤ 366) (hdoy2 : doy2 ≤ 366)
    (hMA1 : (mp1 < 10 ∧ M1 = mp1 + 3 ∧ A1 = 0) ∨ (10 ≤ mp1 ∧ M1 = mp1 - 9 ∧ A1 = 1))
    (hMA2 : (mp2 < 10 ∧ M2 = mp2 + 3 ∧ A2 = 0) ∨ (10 ≤ mp2 ∧ M2 = mp2 - 9 ∧ A2 = 1))
    (hcase : e1 < e2 ∨ (e1 = e2 ∧ yoe1 < yoe2) ∨
      (e1 = e2 ∧ yoe1 = yoe2 ∧ doy1 < doy2)) :
    ((yoe1 + 400 * e1 + A1) * 100 + M1) * 100 + (doy1 - q1 + 1)
      < ((yoe2 + 400 * e2 + A2) * 100 + M2) * 100 + (doy2 - q2 + 1) := by
  have hmp1le : mp1 ≤ 11 := by omega
  have hmp2le : mp2 ≤ 11 := by omega
  have hq1le : q1 ≤ doy1 := by omega
  have hq2le : q2 ≤ doy2 := by omega
  have hg1 : doy1 - q1 ≤ 30 := by omega
  have hg2 : doy2 - q2 ≤ 30 := by omega
  have hA1le : A1 ≤ 1 := by rcases hMA1 with ⟨_, _, h⟩ | ⟨_, _, h⟩ <;> omega
  have hA2le : A2 ≤ 1 := by rcases hMA2 with ⟨_, _, h⟩ | ⟨_, _, h⟩ <;> omega
  have hM1le : M1 ≤ 99 := by rcases hMA1 with ⟨_, h, _⟩ | ⟨_, h, _⟩ <;> omega
  refine encode_pair_lt _ _ _ _ _ _ hM1le (by omega) ?_
  rcases hcase with hc | ⟨hc1, hc2⟩ | ⟨hc1, hc2, hc3⟩
  · by_cases hYe : yoe1 + 400 * e1 + A1 = yoe2 + 400 * e2 + A2
    · refine Or.inr (Or.inl ⟨hYe, ?_⟩)
      rcases hMA1 with ⟨h10a, hM1, hA1⟩ | ⟨h10a, hM1, hA1⟩ <;>
        rcases hMA2 with ⟨h10b, hM2, hA2⟩ | ⟨h10b, hM2, hA2⟩ <;> omega
    · refine Or.inl ?_
      rcases hMA1 with ⟨h10a, hM1, hA1⟩ | ⟨h10a, hM1, hA1⟩ <;>
        rcases hMA2 with ⟨h10b, hM2, hA2⟩ | ⟨h10b, hM2, hA2⟩ <;> omega
  · by_cases hYe : yoe1 + 400 * e1 + A1 = yoe2 + 400 * e2 + A2
    · refine Or.inr (Or.inl ⟨hYe, ?_⟩)
      rcases hMA1 with ⟨h10a, hM1, hA1⟩ | ⟨h10a, hM1, hA1⟩ <;>
        rcases hMA2 with ⟨h10b, hM2, hA2⟩ | ⟨h10b, hM2, hA2⟩ <;> omega
    · refine Or.inl ?_
      rcases hMA1 with ⟨h10a, hM1, hA1⟩ | ⟨h10a, hM1, hA1⟩ <;>
        rcases hMA2 with ⟨h10b, hM2, hA2⟩ | ⟨h10b, hM2, hA2⟩ <;> omega
  · have hmple : mp1 ≤ mp2 := by omega
    by_cases hmpe : mp1 = mp2
    · have hqe : q1 = q2 := by omega
      refine Or.inr (Or.inr ⟨?_, ?_, by omega⟩)
      · rcases hMA1 with ⟨h10a, hM1, hA1⟩ | ⟨h10a, hM1, hA1⟩ <;>
          rcases hMA2 with ⟨h10b, hM2, hA2⟩ | ⟨h10b, hM2, hA2⟩ <;> omega
      · rcases hMA1 with ⟨h10a, hM1, hA1⟩ | ⟨h10a, hM1, hA1⟩ <;>
          rcases hMA2 with ⟨h10b, hM2, hA2⟩ | ⟨h10b, hM2, hA2⟩ <;> omega
    · by_cases hYe : yoe1 + 400 * e1 + A1 = yoe2 + 400 * e2 + A2
      · refine Or.inr (Or.inl ⟨hYe, ?_⟩)
        rcases hMA1 with ⟨h10a, hM1, hA1⟩ | ⟨h10a, hM1, hA1⟩ <;>
          rcases hMA2 with ⟨h10b, hM2, hA2⟩ | ⟨h10b, hM2, hA2⟩ <;> omega
      · refine Or.inl ?_
        rcases hMA1 with ⟨h10a, hM1, hA1⟩ | ⟨h10a, hM1, hA1⟩ <;>
          rcases hMA2 with ⟨h10b, hM2, hA2⟩ | ⟨h10b, hM2, hA2⟩ <;> omega

/-- Month/adjustment characterisation of the formatted components. -/
theorem monthAdj_split (doy : Nat) (h : doy ≤ 366) :
    (mpOf doy < 10 ∧ monthOfDoy doy = mpOf doy + 3 ∧
        (if monthOfDoy doy ≤ 2 then 1 else 0) = 0) ∨
      (10 ≤ mpOf doy ∧ monthOfDoy doy = mpOf doy - 9 ∧
        (if monthOfDoy doy ≤ 2 then 1 else 0) = 1) := by
  have hmp := mpOf_le doy h
  unfold monthOfDoy
  by_cases h10 : mpOf doy < 10
  · left
    refine ⟨h10, if_pos h10, ?_⟩
    rw [if_pos h10, if_neg (by omega : ¬ (mpOf doy + 3 ≤ 2))]
  · right
    refine ⟨Nat.le_of_not_lt h10, if_neg h10, ?_⟩
    rw [if_neg h10, if_pos (by omega : mpOf doy - 9 ≤ 2)]

/-- The date encoding is strictly monotone in the day number. -/
theorem encodeDate_strictMono {g1 g2 : Nat} (h : g1 < g2) :
    encodeDate g1 < encodeDate g2 := by
  have hd1 := doeOf_le g1
  have hd2 := doeOf_le g2
  have hcase : eraOf g1 < eraOf g2 ∨
      (eraOf g1 = eraOf g2 ∧ yoeOf (doeOf g1) < yoeOf (doeOf g2)) ∨
      (eraOf g1 = eraOf g2 ∧ yoeOf (doeOf g1) = yoeOf (doeOf g2) ∧
        doyOf (doeOf g1) < doyOf (doeOf g2)) := by
    have hera : eraOf g1 ≤ eraOf g2 := by
      unfold eraOf
      omega
    by_cases he : eraOf g1 = eraOf g2
    · have hdoe : doeOf g1 < doeOf g2 := by
        unfold doeOf eraOf at *
        omega
      have hyoe := yoeOf_mono (le_of_lt hdoe) hd2
      by_cases hy : yoeOf (doeOf g1) = yoeOf (doeOf g2)
      · have hA1 := yearStart_le_doe (doeOf g1) hd1
        rw [hy] at hA1
        have hdoy : doyOf (doeOf g1) < doyOf (doeOf g2) := by
          unfold doyOf
          rw [hy]
          omega
        exact Or.inr (Or.inr ⟨he, hy, hdoy⟩)
      · exact Or.inr (Or.inl ⟨he, lt_of_le_of_ne hyoe hy⟩)
    · exact Or.inl (lt_of_le_of_ne hera he)
  have hyb := yoeOf_le (doeOf g1) hd1
  have hdoyb1 := doyOf_le (doeOf g1) hd1
  have hdoyb2 := doyOf_le (doeOf g2) hd2
  have hm1a : 153 * mpOf (doyOf (doeOf g1)) ≤ 5 * doyOf (doeOf g1) + 2 := by
    unfold mpOf
    omega
  have hm1b : 5 * doyOf (doeOf g1) + 2 < 153 * mpOf (doyOf (doeOf g1)) + 153 := by
    unfold mpOf
    omega
  have hm2a : 153 * mpOf (doyOf (doeOf g2)) ≤ 5 * doyOf (doeOf g2) + 2 := by
    unfold mpOf
    omega
  have hm2b : 5 * doyOf (doeOf g2) + 2 < 153 * mpOf (doyOf (doeOf g2)) + 153 := by
    unfold mpOf
    omega
  have hq1a : 5 * ((153 * mpOf (doyOf (doeOf g1)) + 2) / 5)
      ≤ 153 * mpOf (doyOf (doeOf g1)) + 2 := by
    omega
  have hq1b : 153 * mpOf (doyOf (doeOf g1)) + 2
      < 5 * ((153 * mpOf (doyOf (doeOf g1)) + 2) / 5) + 5 := by
    omega
  have hq2a : 5 * ((153 * mpOf (doyOf (doeOf g2)) + 2) / 5)
      ≤ 153 * mpOf (doyOf (doeOf g2)) + 2 := by
    omega
  have hq2b : 153 * mpOf (doyOf (doeOf g2)) + 2
      < 5 * ((153 * mpOf (doyOf (doeOf g2)) + 2) / 5) + 5 := by
    omega
  have hMA1 := monthAdj_split (doyOf (doeOf g1)) hdoyb1
  have hMA2 := monthAdj_split (doyOf (doeOf g2)) hdoyb2
  have := encode_mono_core (eraOf g1) (eraOf g2) (yoeOf (doeOf g1))
    (yoeOf (doeOf g2)) (doyOf (doeOf g1)) (doyOf (doeOf g2))
    (mpOf (doyOf (doeOf g1))) (mpOf (doyOf (doeOf g2)))
    ((153 * mpOf (doyOf (doeOf g1)) + 2) / 5) ((153 * mpOf (doyOf (doeOf g2)) + 2) / 5)
    (if monthOfDoy (doyOf (doeOf g1)) ≤ 2 then 1 else 0)
    (if monthOfDoy (doyOf (doeOf g2)) ≤ 2 then 1 else 0)
    (monthOfDoy (doyOf (doeOf g1))) (monthOfDoy (doyOf (doeOf g2)))
    hyb hm1a hm1b hm2a hm2b hq1a hq1b hq2a hq2b hdoyb1 hdoyb2 hMA1 hMA2 hcase
  simpa only [encodeDate, yearOfG, monthOfG, dayOfG, dayOfDoy] using this

/-! ## Formatting: `$dateToString` with format `%Y-%m-%d %H:00:00` -/

/-- Decimal digit character. -/
def digitChar : Nat → Char
  | 0 => '0'
  | 1 => '1'
  | 2 => '2'
  | 3 => '3'
  | 4 => '4'
  | 5 => '5'
  | 6 => '6'
  | 7 => '7'
  | 8 => '8'
  | _ => '9'

/-- The 19 characters of a formatted bucket `YYYY-MM-DD HH:00:00` (minutes and
seconds are literal zeros in the format string). -/
def keyChars (y m d h : Nat) : List Char :=
  [digitChar (y / 1000 % 10), digitChar (y / 100 % 10), digitChar (y / 10 % 10),
   digitChar (y % 10), '-', digitChar (m / 10 % 10), digitChar (m % 10), '-',
   digitChar (d / 10 % 10), digitChar (d % 10), ' ', digitChar (h / 10 % 10),
   digitChar (h % 10), ':', '0', '0', ':', '0', '0']

/-- The bucket string of an absolute local-hour index. -/
def keyOfHourIndex (H : Nat) : String :=
  String.mk (keyChars (yearOfG (H / 24)) (monthOfG (H / 24)) (dayOfG (H / 24)) (H % 24))

/-- Numeric encoding of a local-hour index, ordered like the bucket string. -/
def encodeHour (H : Nat) : Nat := encodeDate (H / 24) * 100 + H % 24

theorem encodeHour_strictMono {H1 H2 : Nat} (h : H1 < H2) :
    encodeHour H1 < encodeHour H2 := by
  unfold encodeHour
  by_cases hg : H1 / 24 = H2 / 24
  · rw [hg]
    omega
  · have hglt : H1 / 24 < H2 / 24 := by omega
    have := encodeDate_strictMono hglt
    have h1 : H1 % 24 < 24 := Nat.mod_lt _ (by norm_num)
    omega

theorem digitChar_lt_iff : ∀ a < 10, ∀ b < 10, (digitChar a < digitChar b ↔ a < b) := by
  decide

theorem digitChar_eq_iff : ∀ a < 10, ∀ b < 10, (digitChar a = digitChar b ↔ a = b) := by
  decide

theorem char_cons_lt_iff (a b : Char) (as bs : List Char) :
    (a :: as) < (b :: bs) ↔ a < b ∨ (a = b ∧ as < bs) := by
  constructor
  · intro h
    cases h with
    | cons h => exact Or.inr ⟨rfl, h⟩
    | rel h => exact Or.inl h
  · rintro (h | ⟨rfl, h⟩)
    · exact List.Lex.rel h
    · exact List.Lex.cons h

theorem char_nil_lt_nil : ¬ (([] : List Char) < []) := by
  intro h
  cases h

set_option maxHeartbeats 1000000 in
/-- Lexicographic comparison of two bucket digit lists coincides with the
numeric comparison of the concatenated digits. -/
theorem keyCharsDigits_lt_iff (a1 a2 a3 a4 b1 b2 c1 c2 e1 e2 f1 f2 f3 f4 j1 j2 k1 k2 l1 l2 : Nat)
    (ha1 : a1 < 10) (ha2 : a2 < 10) (ha3 : a3 < 10) (ha4 : a4 < 10)
    (hb1 : b1 < 10) (hb2 : b2 < 10) (hc1 : c1 < 10) (hc2 : c2 < 10)
    (he1 : e1 < 10) (he2 : e2 < 10)
    (hf1 : f1 < 10) (hf2 : f2 < 10) (hf3 : f3 < 10) (hf4 : f4 < 10)
    (hj1 : j1 < 10) (hj2 : j2 < 10) (hk1 : k1 < 10) (hk2 : k2 < 10)
    (hl1 : l1 < 10) (hl2 : l2 < 10) :
    ([digitChar a1, digitChar a2, digitChar a3, digitChar a4, '-', digitChar b1, digitChar b2,
      '-', digitChar c1, digitChar c2, ' ', digitChar e1, digitChar e2,
      ':', '0', '0', ':', '0', '0'] : List Char)
      < [digitChar f1, digitChar f2, digitChar f3, digitChar f4, '-', digitChar j1, digitChar j2,
         '-', digitChar k1, digitChar k2, ' ', digitChar l1, digitChar l2,
         ':', '0', '0', ':', '0', '0'] ↔
      (((1000 * a1 + 100 * a2 + 10 * a3 + a4) * 100 + (10 * b1 + b2)) * 100
          + (10 * c1 + c2)) * 100 + (10 * e1 + e2)
        < (((1000 * f1 + 100 * f2 + 10 * f3 + f4) * 100 + (10 * j1 + j2)) * 100
          + (10 * k1 + k2)) * 100 + (10 * l1 + l2) := by
  simp only [char_cons_lt_iff, digitChar_lt_iff _ ha1 _ hf1, digitChar_eq_iff _ ha1 _ hf1,
    digitChar_lt_iff _ ha2 _ hf2, digitChar_eq_iff _ ha2 _ hf2,
    digitChar_lt_iff _ ha3 _ hf3, digitChar_eq_iff _ ha3 _ hf3,
    digitChar_lt_iff _ ha4 _ hf4, digitChar_eq_iff _ ha4 _ hf4,
    digitChar_lt_iff _ hb1 _ hj1, digitChar_eq_iff _ hb1 _ hj1,
    digitChar_lt_iff _ hb2 _ hj2, digitChar_eq_iff _ hb2 _ hj2,
    digitChar_lt_iff _ hc1 _ hk1, digitChar_eq_iff _ hc1 _ hk1,
    digitChar_lt_iff _ hc2 _ hk2, digitChar_eq_iff _ hc2 _ hk2,
    digitChar_lt_iff _ he1 _ hl1, digitChar_eq_iff _ he1 _ hl1,
    digitChar_lt_iff _ he2 _ hl2, digitChar_eq_iff _ he2 _ hl2,
    lt_self_iff_false, eq_self_iff_true, false_or, true_and, char_nil_lt_nil,
    iff_false, and_false, or_false]
  omega

set_option maxHeartbeats 1000000 in
/-- Lexicographic comparison of two bucket strings coincides with the numeric
comparison of their zero-padded fields. -/
theorem keyChars_lt_iff (y1 m1 d1 h1 y2 m2 d2 h2 : Nat)
    (hy1 : y1 ≤ 9999) (hy2 : y2 ≤ 9999) (hm1 : m1 ≤ 99) (hm2 : m2 ≤ 99)
    (hd1 : d1 ≤ 99) (hd2 : d2 ≤ 99) (hh1 : h1 ≤ 99) (hh2 : h2 ≤ 99) :
    keyChars y1 m1 d1 h1 < keyChars y2 m2 d2 h2 ↔
      ((y1 * 100 + m1) * 100 + d1) * 100 + h1
        < ((y2 * 100 + m2) * 100 + d2) * 100 + h2 := by
  have h := keyCharsDigits_lt_iff (y1 / 1000 % 10) (y1 / 100 % 10) (y1 / 10 % 10) (y1 % 10)
    (m1 / 10 % 10) (m1 % 10) (d1 / 10 % 10) (d1 % 10) (h1 / 10 % 10) (h1 % 10)
    (y2 / 1000 % 10) (y2 / 100 % 10) (y2 / 10 % 10) (y2 % 10)
    (m2 / 10 % 10) (m2 % 10) (d2 / 10 % 10) (d2 % 10) (h2 / 10 % 10) (h2 % 10)
    (by omega) (by omega) (by omega) (by omega) (by omega) (by omega) (by omega) (by omega)
    (by omega) (by omega) (by omega) (by omega) (by omega) (by omega) (by omega) (by omega)
    (by omega) (by omega) (by omega) (by omega)
  have hs1 : (((1000 * (y1 / 1000 % 10) + 100 * (y1 / 100 % 10) + 10 * (y1 / 10 % 10)
      + y1 % 10) * 100 + (10 * (m1 / 10 % 10) + m1 % 10)) * 100
      + (10 * (d1 / 10 % 10) + d1 % 10)) * 100 + (10 * (h1 / 10 % 10) + h1 % 10)
      = ((y1 * 100 + m1) * 100 + d1) * 100 + h1 := by
    have e1 : 1000 * (y1 / 1000 % 10) + 100 * (y1 / 100 % 10) + 10 * (y1 / 10 % 10)
        + y1 % 10 = y1 := by omega
    have e2 : 10 * (m1 / 10 % 10) + m1 % 10 = m1 := by omega
    have e3 : 10 * (d1 / 10 % 10) + d1 % 10 = d1 := by omega
    have e4 : 10 * (h1 / 10 % 10) + h1 % 10 = h1 := by omega
    rw [e1, e2, e3, e4]
  have hs2 : (((1000 * (y2 / 1000 % 10) + 100 * (y2 / 100 % 10) + 10 * (y2 / 10 % 10)
      + y2 % 10) * 100 + (10 * (m2 / 10 % 10) + m2 % 10)) * 100
      + (10 * (d2 / 10 % 10) + d2 % 10)) * 100 + (10 * (h2 / 10 % 10) + h2 % 10)
      = ((y2 * 100 + m2) * 100 + d2) * 100 + h2 := by
    have e1 : 1000 * (y2 / 1000 % 10) + 100 * (y2 / 100 % 10) + 10 * (y2 / 10 % 10)
        + y2 % 10 = y2 := by omega
    have e2 : 10 * (m2 / 10 % 10) + m2 % 10 = m2 := by omega
    have e3 : 10 * (d2 / 10 % 10) + d2 % 10 = d2 := by omega
    have e4 : 10 * (h2 / 10 % 10) + h2 % 10 = h2 := by omega
    rw [e1, e2, e3, e4]
  rw [hs1, hs2] at h
  exact h

theorem keyOfHourIndex_lt_iff (H1 H2 : Nat)
    (hy1 : yearOfG (H1 / 24) ≤ 9999) (hy2 : yearOfG (H2 / 24) ≤ 9999) :
    keyOfHourIndex H1 < keyOfHourIndex H2 ↔ encodeHour H1 < encodeHour H2 := by
  have hm1 := monthOfDoy_bounds (doyOf (doeOf (H1 / 24))) (doyOf_le _ (doeOf_le _))
  have hm2 := monthOfDoy_bounds (doyOf (doeOf (H2 / 24))) (doyOf_le _ (doeOf_le _))
  have hdd1 := dayOfDoy_bounds (doyOf (doeOf (H1 / 24)))
  have hdd2 := dayOfDoy_bounds (doyOf (doeOf (H2 / 24)))
  have hh1 : H1 % 24 < 24 := Nat.mod_lt _ (by norm_num)
  have hh2 : H2 % 24 < 24 := Nat.mod_lt _ (by norm_num)
  have hkey := keyChars_lt_iff (yearOfG (H1 / 24)) (monthOfG (H1 / 24)) (dayOfG (H1 / 24))
    (H1 % 24) (yearOfG (H2 / 24)) (monthOfG (H2 / 24)) (dayOfG (H2 / 24)) (H2 % 24)
    hy1 hy2 (by unfold monthOfG; omega) (by unfold monthOfG; omega)
    (by unfold dayOfG; omega) (by unfold dayOfG; omega) (by omega) (by omega)
  have hstr : (keyOfHourIndex H1 < keyOfHourIndex H2) ↔
      (keyChars (yearOfG (H1 / 24)) (monthOfG (H1 / 24)) (dayOfG (H1 / 24)) (H1 % 24)
        < keyChars (yearOfG (H2 / 24)) (monthOfG (H2 / 24)) (dayOfG (H2 / 24)) (H2 % 24)) :=
    String.lt_iff_toList_lt
  rw [hstr, hkey]
  unfold encodeHour encodeDate
  omega

theorem keyOfHourIndex_strictMono {H1 H2 : Nat} (h : H1 < H2)
    (hy1 : yearOfG (H1 / 24) ≤ 9999) (hy2 : yearOfG (H2 / 24) ≤ 9999) :
    keyOfHourIndex H1 < keyOfHourIndex H2 :=
  (keyOfHourIndex_lt_iff H1 H2 hy1 hy2).mpr (encodeHour_strictMono h)

/-- The bucket string determines the local-hour index (over the year range
supported by the `%Y` format specifier). -/
theorem keyOfHourIndex_inj (H1 H2 : Nat)
    (hy1 : yearOfG (H1 / 24) ≤ 9999) (hy2 : yearOfG (H2 / 24) ≤ 9999) :
    keyOfHourIndex H1 = keyOfHourIndex H2 ↔ H1 = H2 := by
  constructor
  · intro h
    by_contra hne
    rcases Nat.lt_or_ge H1 H2 with hlt | hge
    · have := keyOfHourIndex_strictMono hlt hy1 hy2
      rw [h] at this
      exact lt_irrefl _ this
    · have hlt : H2 < H1 := by omega
      have := keyOfHourIndex_strictMono hlt hy2 hy1
      rw [h] at this
      exact lt_irrefl _ this
  · intro h
    rw [h]

/-- The bucket string order coincides with chronological order of the local
hours (over the supported year range). -/
theorem keyOfHourIndex_lt_iff_lt (H1 H2 : Nat)
    (hy1 : yearOfG (H1 / 24) ≤ 9999) (hy2 : yearOfG (H2 / 24) ≤ 9999) :
    keyOfHourIndex H1 < keyOfHourIndex H2 ↔ H1 < H2 := by
  constructor
  · intro h
    by_contra hge
    rcases Nat.lt_or_ge H2 H1 with hlt | hle
    · have := keyOfHourIndex_strictMono hlt hy2 hy1
      exact absurd h (lt_asymm this)
    · have : H1 = H2 := by omega
      rw [this] at h
      exact lt_irrefl _ h
  · intro hlt
    exact keyOfHourIndex_strictMono hlt hy1 hy2

/-! ## The `America/Chicago` timezone

`$dateToString` applies the tz database rules for `America/Chicago`.  The
model implements the rule in force since 2007 (which covers the data this
repository processes): daylight saving time starts at 2:00 local standard
time on the second Sunday of March (08:00 UTC, offset −5 h) and ends at 2:00
local daylight time on the first Sunday of November (07:00 UTC, offset −6 h
afterwards). -/

/-- `days_from_civil`, used to locate the DST transition days of a year. -/
def daysFromCivil (y m d : Nat) : Nat :=
  let yy := if m ≤ 2 then y - 1 else y
  let era := yy / 400
  let yoe := yy % 400
  let doy := (153 * (if 2 < m then m - 3 else m + 9) + 2) / 5 + d - 1
  era * 146097 + (yoe * 365 + yoe / 4 - yoe / 100 + doy)

/-- Day of week of a shifted day number (0 = Sunday). -/
def dowOf (g : Nat) : Nat := (g + 3) % 7

/-- Shifted day number of the second Sunday of March of a year. -/
def secondSundayMarch (y : Nat) : Nat :=
  let g := daysFromCivil y 3 1
  g + (7 - dowOf g) % 7 + 7

/-- Shifted day number of the first Sunday of November of a year. -/
def firstSundayNov (y : Nat) : Nat :=
  let g := daysFromCivil y 11 1
  g + (7 - dowOf g) % 7

/-- Seconds between the shifted epoch 0000-03-01 and the Unix epoch. -/
def shiftSec : Int := 62162035200

/-- UTC offset (in seconds) of `America/Chicago` at a given instant. -/
def chicagoOffset (t : Int) : Int :=
  let gsec := (t + shiftSec).toNat
  let y := yearOfG (gsec / 86400)
  let dstStart := secondSundayMarch y * 86400 + 8 * 3600
  let dstEnd := firstSundayNov y * 86400 + 7 * 3600
  if dstStart ≤ gsec ∧ gsec < dstEnd then -18000 else -21600

/-- The wall-clock hour of an instant in `America/Chicago`, as an absolute
hour index counted from the shifted epoch. -/
def chicagoHourIndex (t : Int) : Nat :=
  (t + chicagoOffset t + shiftSec).toNat / 3600

/-- The `localHour` field of the pipeline: `$dateToString` of `updatedAt`
with format `%Y-%m-%d %H:00:00` and timezone `America/Chicago`.  The format
writes the local year, month, day and hour, with literal `00:00` minutes and
seconds, so the result depends only on the local wall-clock hour. -/
def hourKey (t : Int) : String := keyOfHourIndex (chicagoHourIndex t)

/-- C2: the HourBucket key of a record is the `YYYY-MM-DD HH:00:00` rendering
of its `updatedAt` instant converted to `America/Chicago`; two timestamps in
the same wall-clock hour of that zone get the same key, whatever instants
they come from, and timestamps in different local hours get different keys. -/
theorem hour_bucket_follows_local_hour (t1 t2 : Int)
    (hy1 : yearOfG (chicagoHourIndex t1 / 24) ≤ 9999)
    (hy2 : yearOfG (chicagoHourIndex t2 / 24) ≤ 9999) :
    hourKey t1 = keyOfHourIndex (chicagoHourIndex t1) ∧
      (hourKey t1 = hourKey t2 ↔ chicagoHourIndex t1 = chicagoHourIndex t2) := by
  exact ⟨rfl, keyOfHourIndex_inj _ _ hy1 hy2⟩

/-- Witness for C2 at the spec's example instants `2020-05-01T05:59:00Z` and
`2020-05-01T06:01:00Z`: the two instants are in different Chicago wall-clock
hours and get different bucket keys. -/
theorem hour_bucket_follows_local_hour_witness :
    yearOfG (chicagoHourIndex 1588312740 / 24) ≤ 9999 ∧
      (hourKey 1588312740 = hourKey 1588312860 ↔
        chicagoHourIndex 1588312740 = chicagoHourIndex 1588312860) ∧
      hourKey 1588312740 = "2020-05-01 00:00:00" ∧
      hourKey 1588312860 = "2020-05-01 01:00:00" :=
  ⟨by decide,
   (hour_bucket_follows_local_hour 1588312740 1588312860 (by decide) (by decide)).2,
   by decide, by decide⟩

/-! ## Rounding, averaging and grouping (`$round`, `$avg`, `$group`, `$sort`) -/

/-- `$round : [x, 2]` on numeric BSON values: round to the nearest multiple
of 1/100, ties to the nearest even value (MongoDB's documented behaviour). -/
def roundHalfEven (q : ℚ) : ℤ :=
  if q - ⌊q⌋ < 1 / 2 then ⌊q⌋
  else if 1 / 2 < q - ⌊q⌋ then ⌊q⌋ + 1
  else if ⌊q⌋ % 2 = 0 then ⌊q⌋ else ⌊q⌋ + 1

/-- Rounding to 2 decimal places. -/
def round2 (q : ℚ) : ℚ := (roundHalfEven (q * 100) : ℚ) / 100

/-- `$avg` applied to the 2-decimal-rounded values of a group: the values are
rounded individually first, then averaged. -/
def avgOf (f : Record → ℚ) (l : List Record) : ℚ :=
  (l.map (fun r => round2 (f r))).sum / l.length

/-- One output document of the aggregation: `_id` (the HourBucket string),
`avgHumidity` and `avgTemperature`. -/
structure AggRow where
  bucket : String
  avgHumidity : ℚ
  avgTemperature : ℚ
deriving DecidableEq, Repr

/-- The `localHour` value of a record. -/
def hourKeyR (r : Record) : String := hourKey r.updatedAt

/-- The records of one `$group` bucket. -/
def bucketRecords (recs : List Record) (k : String) : List Record :=
  recs.filter (fun r => hourKeyR r = k)

/-- The distinct bucket keys in ascending (BSON string) order, as produced by
`$group` followed by `$sort {_id: 1}`. -/
def sortedKeys (recs : List Record) : List String :=
  List.insertionSort (· ≤ ·) (recs.map hourKeyR).dedup

/-- The `$group` and `$sort` stages of the pipeline: one row per distinct
HourBucket, carrying the averages of the individually rounded humidity and
temperature values, in ascending key order. -/
def aggregate (recs : List Record) : List AggRow :=
  (sortedKeys recs).map (fun k =>
    { bucket := k
      avgHumidity := avgOf (fun r => r.humidity) (bucketRecords recs k)
      avgTemperature := avgOf (fun r => r.temperature) (bucketRecords recs k) })

theorem aggregate_buckets (recs : List Record) :
    (aggregate recs).map AggRow.bucket = sortedKeys recs := by
  unfold aggregate
  rw [List.map_map]
  exact List.map_id (sortedKeys recs)

theorem sortedKeys_sorted (recs : List Record) :
    List.Sorted (· ≤ ·) (sortedKeys recs) :=
  List.sorted_insertionSort _ _

/-! ## Claim C6: output sorted by bucket, lexicographic = chronological -/

/-- C6: for every input record set and every permutation of it, the output
rows are non-decreasing in the HourBucket string under lexicographic order,
and this lexicographic order on the fixed-width bucket strings coincides with
the chronological order of the buckets. -/
theorem aggregation_sorted_chronological (recs recsP : List Record)
    (hperm : recs.Perm recsP) (H1 H2 : Nat)
    (hy1 : yearOfG (H1 / 24) ≤ 9999) (hy2 : yearOfG (H2 / 24) ≤ 9999) :
    List.Sorted (· ≤ ·) ((aggregate recsP).map AggRow.bucket) ∧
      (keyOfHourIndex H1 < keyOfHourIndex H2 ↔ H1 < H2) := by
  constructor
  · rw [aggregate_buckets]
    exact sortedKeys_sorted recsP
  · exact keyOfHourIndex_lt_iff_lt H1 H2 hy1 hy2

/-- Witness for C6 at a concrete permutation of a two-record input. -/
theorem aggregation_sorted_chronological_witness :
    List.Sorted (· ≤ ·)
        ((aggregate [⟨2, 1588312860, 11, 51⟩, ⟨1, 1588312740, 10, 50⟩]).map AggRow.bucket) ∧
      (keyOfHourIndex 17709202 < keyOfHourIndex 17709203 ↔ 17709202 < 17709203) :=
  aggregation_sorted_chronological
    [⟨1, 1588312740, 10, 50⟩, ⟨2, 1588312860, 11, 51⟩]
    [⟨2, 1588312860, 11, 51⟩, ⟨1, 1588312740, 10, 50⟩]
    (List.Perm.swap _ _ _) 17709202 17709203 (by decide) (by decide)

/-! ## Claim C1: round before averaging, not average before rounding -/

/-- C1: every report row's avgTemperature and avgHumidity are the mean of the
per-record values after each value has been individually rounded to 2 decimal
places; on the spec's example values `[10.004, 10.006]` this differs from
rounding the mean of the raw values. -/
theorem aggregation_round_then_average (recs : List Record) (row : AggRow)
    (hrow : row ∈ aggregate recs) :
    row.avgTemperature = avgOf (fun r => r.temperature) (bucketRecords recs row.bucket) ∧
      row.avgHumidity = avgOf (fun r => r.humidity) (bucketRecords recs row.bucket) ∧
      avgOf (fun r => r.temperature)
          [⟨1, 1588312740, 10.004, 50⟩, ⟨2, 1588312740, 10.006, 50⟩]
        = (round2 10.004 + round2 10.006) / 2 ∧
      (round2 10.004 + round2 10.006) / 2 ≠ round2 ((10.004 + 10.006) / 2) := by
  obtain ⟨k, hk, rfl⟩ := List.mem_map.mp hrow
  refine ⟨rfl, rfl, ?_, ?_⟩
  · show (([(⟨1, 1588312740, 10.004, 50⟩ : Record), ⟨2, 1588312740, 10.006, 50⟩].map
        (fun r => round2 r.temperature)).sum) / 2 = _
    simp only [List.map_cons, List.map_nil, List.sum_cons, List.sum_nil]
    ring
  · norm_num [round2, roundHalfEven]

/-- Witness for C1: the two-record input at the same instant forms a single
bucket whose row satisfies the round-then-average characterisation. -/
theorem aggregation_round_then_average_witness :
    (⟨hourKey 1588312740,
        avgOf (fun r => r.humidity)
          (bucketRecords [⟨1, 1588312740, 10.004, 50⟩, ⟨2, 1588312740, 10.006, 50⟩]
            (hourKey 1588312740)),
        avgOf (fun r => r.temperature)
          (bucketRecords [⟨1, 1588312740, 10.004, 50⟩, ⟨2, 1588312740, 10.006, 50⟩]
            (hourKey 1588312740))⟩ : AggRow).avgTemperature
        = avgOf (fun r => r.temperature)
          (bucketRecords [⟨1, 1588312740, 10.004, 50⟩, ⟨2, 1588312740, 10.006, 50⟩]
            (hourKey 1588312740)) ∧
      (⟨hourKey 1588312740,
        avgOf (fun r => r.humidity)
          (bucketRecords [⟨1, 1588312740, 10.004, 50⟩, ⟨2, 1588312740, 10.006, 50⟩]
            (hourKey 1588312740)),
        avgOf (fun r => r.temperature)
          (bucketRecords [⟨1, 1588312740, 10.004, 50⟩, ⟨2, 1588312740, 10.006, 50⟩]
            (hourKey 1588312740))⟩ : AggRow).avgHumidity
        = avgOf (fun r => r.humidity)
          (bucketRecords [⟨1, 1588312740, 10.004, 50⟩, ⟨2, 1588312740, 10.006, 50⟩]
            (hourKey 1588312740)) ∧
      avgOf (fun r => r.temperature)
          [⟨1, 1588312740, 10.004, 50⟩, ⟨2, 1588312740, 10.006, 50⟩]
        = (round2 10.004 + round2 10.006) / 2 ∧
      (round2 10.004 + round2 10.006) / 2 ≠ round2 ((10.004 + 10.006) / 2) := by
  have hkeys : sortedKeys [(⟨1, 1588312740, 10.004, 50⟩ : Record), ⟨2, 1588312740, 10.006, 50⟩]
      = [hourKey 1588312740] := by decide
  have hmem : (⟨hourKey 1588312740,
      avgOf (fun r => r.humidity)
        (bucketRecords [⟨1, 1588312740, 10.004, 50⟩, ⟨2, 1588312740, 10.006, 50⟩]
          (hourKey 1588312740)),
      avgOf (fun r => r.temperature)
        (bucketRecords [⟨1, 1588312740, 10.004, 50⟩, ⟨2, 1588312740, 10.006, 50⟩]
          (hourKey 1588312740))⟩ : AggRow)
      ∈ aggregate [⟨1, 1588312740, 10.004, 50⟩, ⟨2, 1588312740, 10.006, 50⟩] := by
    unfold aggregate
    rw [hkeys]
    exact List.mem_singleton.mpr rfl
  exact aggregation_round_then_average _ _ hmem

/-! ## CSV output (`encoding/csv` and `fmt.Sprintf` with format `%.2f`) -/

/-- Decimal digits of a natural number, most significant first. -/
def natChars (n : Nat) : List Char :=
  if h : n < 10 then [digitChar n]
  else natChars (n / 10) ++ [digitChar (n % 10)]
termination_by n
decreasing_by exact Nat.div_lt_self (by omega) (by omega)

/-- Decimal rendering of a natural number. -/
def natStr (n : Nat) : String := String.mk (natChars n)

/-- Go's `fmt.Sprintf("%.2f", x)`: sign of the value, integer part, a dot and
exactly two fractional digits, the value rounded to 2 decimals half-to-even. -/
def fmt2 (q : ℚ) : String :=
  (if q < 0 then "-" else "") ++ natStr ((roundHalfEven (q * 100)).natAbs / 100) ++ "." ++
    String.mk [digitChar ((roundHalfEven (q * 100)).natAbs % 100 / 10),
      digitChar ((roundHalfEven (q * 100)).natAbs % 100 % 10)]

/-- Whether `encoding/csv` quotes a field: a literal backslash-dot field, a
field containing the comma, a double quote, CR or LF, or a field starting
with (ASCII) white space. -/
def csvNeedsQuote (f : String) : Bool :=
  f == "\\." ||
  f.toList.any (fun c => c == ',' || c == '"' || c == '\r' || c == '\n') ||
  (match f.toList with
   | [] => false
   | c :: _ => c == ' ' || c == '\t' || c == '\n' || c == '\x0b' || c == '\x0c' || c == '\r')

/-- The quoted form of a field: quotes doubled, the field wrapped in quotes. -/
def csvQuoteStr (f : String) : String :=
  "\"" ++ String.mk (f.toList.foldr
    (fun c acc => if c = '"' then '"' :: '"' :: acc else c :: acc) []) ++ "\""

/-- One field as written by `csv.Writer`. -/
def csvField (f : String) : String := if csvNeedsQuote f then csvQuoteStr f else f

/-- One record as written by `csv.Writer.Write`: fields joined by commas. -/
def csvLine (fields : List String) : String := String.intercalate "," (fields.map csvField)

/-- The fixed header row of the CSV variant. -/
def csvHeader : List String := ["measurement_date_time", "temperature_F", "humidity_percent"]

/-- The run date as formatted by `now.Format("2006-01-02")`. -/
def dateChars (y m d : Nat) : List Char :=
  [digitChar (y / 1000 % 10), digitChar (y / 100 % 10), digitChar (y / 10 % 10),
   digitChar (y % 10), '-', digitChar (m / 10 % 10), digitChar (m % 10), '-',
   digitChar (d / 10 % 10), digitChar (d % 10)]

/-- The output file name `measurements_<YYYY-MM-DD>.csv` for the run date. -/
def csvFileName (y m d : Nat) : String :=
  "measurements_" ++ String.mk (dateChars y m d) ++ ".csv"

/-- Result of one run of the CSV variant of `main.go`: the created file name,
its lines (header first), and the final message printed on success. -/
structure CsvRun where
  fileName : String
  lines : List String
  message : String
deriving DecidableEq, Repr

/-- One run of the CSV variant: `$match` on the day's range, aggregation,
file creation, header, one CSV record per row (bucket, temperature, then
humidity, both formatted to 2 decimals), and the success message. -/
def csvMainRun (start stop : Int) (recs : List Record) (y m d : Nat) : CsvRun :=
  { fileName := csvFileName y m d
    lines := csvLine csvHeader ::
      (aggregate (transferSelect start stop recs)).map
        (fun row => csvLine [row.bucket, fmt2 row.avgTemperature, fmt2 row.avgHumidity])
    message := "Data successfully written to " ++ csvFileName y m d }

/-! ## The produced fields never need CSV quoting -/

theorem digitChar_safe : ∀ a < 10,
    (digitChar a == ',') = false ∧ (digitChar a == '"') = false ∧
      (digitChar a == '\r') = false ∧ (digitChar a == '\n') = false ∧
      (digitChar a == ' ') = false ∧ (digitChar a == '\t') = false ∧
      (digitChar a == '\x0b') = false ∧ (digitChar a == '\x0c') = false := by
  decide

theorem digit_beq_comma (a : Nat) : (digitChar (a % 10) == ',') = false :=
  (digitChar_safe _ (Nat.mod_lt _ (by norm_num))).1

theorem digit_beq_quote (a : Nat) : (digitChar (a % 10) == '"') = false :=
  (digitChar_safe _ (Nat.mod_lt _ (by norm_num))).2.1

theorem digit_beq_cr (a : Nat) : (digitChar (a % 10) == '\r') = false :=
  (digitChar_safe _ (Nat.mod_lt _ (by norm_num))).2.2.1

theorem digit_beq_lf (a : Nat) : (digitChar (a % 10) == '\n') = false :=
  (digitChar_safe _ (Nat.mod_lt _ (by norm_num))).2.2.2.1

theorem digit_beq_space (a : Nat) : (digitChar (a % 10) == ' ') = false :=
  (digitChar_safe _ (Nat.mod_lt _ (by norm_num))).2.2.2.2.1

theorem digit_beq_tab (a : Nat) : (digitChar (a % 10) == '\t') = false :=
  (digitChar_safe _ (Nat.mod_lt _ (by norm_num))).2.2.2.2.2.1

theorem digit_beq_vt (a : Nat) : (digitChar (a % 10) == '\x0b') = false :=
  (digitChar_safe _ (Nat.mod_lt _ (by norm_num))).2.2.2.2.2.2.1

theorem digit_beq_ff (a : Nat) : (digitChar (a % 10) == '\x0c') = false :=
  (digitChar_safe _ (Nat.mod_lt _ (by norm_num))).2.2.2.2.2.2.2

/-- A bucket string is written by the CSV writer verbatim. -/
theorem keyChars_noQuote (y m d h : Nat) :
    csvNeedsQuote (String.mk (keyChars y m d h)) = false := by
  unfold csvNeedsQuote keyChars
  have h3 : (String.mk (keyChars y m d h) == "\\.") = false := by
    apply beq_eq_false_iff_ne.mpr
    intro hEq
    have := congrArg String.length hEq
    simp [String.length, keyChars] at this
  unfold keyChars at h3
  rw [h3]
  simp only [String.toList, List.any_cons, List.any_nil, digit_beq_comma, digit_beq_quote,
    digit_beq_cr, digit_beq_lf, digit_beq_space, digit_beq_tab, digit_beq_vt, digit_beq_ff,
    Bool.or_false, Bool.false_or]
  decide

theorem natChars_shape (n : Nat) : ∀ c ∈ natChars n, ∃ a, a < 10 ∧ c = digitChar a := by
  induction n using Nat.strong_induction_on with
  | _ n ih =>
    intro c hc
    unfold natChars at hc
    by_cases h : n < 10
    · rw [dif_pos h] at hc
      rw [List.mem_singleton] at hc
      exact ⟨n, h, hc⟩
    · rw [dif_neg h] at hc
      rcases List.mem_append.mp hc with h1 | h2
      · exact ih (n / 10) (Nat.div_lt_self (by omega) (by omega)) c h1
      · rw [List.mem_singleton] at h2
        exact ⟨n % 10, Nat.mod_lt _ (by omega), h2⟩

theorem natChars_ne_nil (n : Nat) : natChars n ≠ [] := by
  unfold natChars
  by_cases h : n < 10
  · rw [dif_pos h]
    simp
  · rw [dif_neg h]
    simp

theorem natChars_head_digit (n : Nat) :
    ∃ a cs, a < 10 ∧ natChars n = digitChar a :: cs := by
  obtain ⟨c, cs, hc⟩ := List.exists_cons_of_ne_nil (natChars_ne_nil n)
  obtain ⟨a, ha, rfl⟩ := natChars_shape n c (by rw [hc]; exact List.mem_cons_self _ _)
  exact ⟨a, cs, ha, hc⟩

theorem fmt2_toList (q : ℚ) :
    (fmt2 q).toList
      = (if q < 0 then ['-'] else []) ++ natChars ((roundHalfEven (q * 100)).natAbs / 100)
        ++ ['.'] ++ [digitChar ((roundHalfEven (q * 100)).natAbs % 100 / 10),
          digitChar ((roundHalfEven (q * 100)).natAbs % 100 % 10)] := by
  unfold fmt2 natStr
  by_cases hq : q < 0 <;>
    simp [hq, String.toList, String.data_append]

/-- A `%.2f`-formatted number is written by the CSV writer verbatim. -/
theorem fmt2_noQuote (q : ℚ) : csvNeedsQuote (fmt2 q) = false := by
  obtain ⟨a, cs, ha, hnat⟩ := natChars_head_digit ((roundHalfEven (q * 100)).natAbs / 100)
  have h3 : (fmt2 q == "\\.") = false := by
    apply beq_eq_false_iff_ne.mpr
    intro hEq
    have hL := congrArg String.toList hEq
    rw [fmt2_toList] at hL
    have hlen := congrArg List.length hL
    rw [hnat] at hlen
    by_cases hq : q < 0 <;> simp [hq, String.toList] at hlen
  have h1 : (fmt2 q).toList.any
      (fun c => c == ',' || c == '"' || c == '\r' || c == '\n') = false := by
    rw [List.any_eq_false]
    intro c hc
    rw [fmt2_toList] at hc
    simp only [List.mem_append, List.mem_singleton, List.mem_cons, List.not_mem_nil,
      or_false] at hc
    rcases hc with (((hs | hn) | hd) | hd1 | hd1)
    · by_cases hq : q < 0 <;> simp [hq] at hs
      rw [hs]
      decide
    · obtain ⟨b, hb, rfl⟩ := natChars_shape _ c hn
      have hsafe := digitChar_safe b hb
      simp [hsafe.1, hsafe.2.1, hsafe.2.2.1, hsafe.2.2.2.1]
    · rw [hd]
      decide
    · rw [hd1]
      have hlt : (roundHalfEven (q * 100)).natAbs % 100 / 10 < 10 := by omega
      have hsafe := digitChar_safe _ hlt
      simp [hsafe.1, hsafe.2.1, hsafe.2.2.1, hsafe.2.2.2.1]
    · rw [hd1]
      have hlt : (roundHalfEven (q * 100)).natAbs % 100 % 10 < 10 := by omega
      have hsafe := digitChar_safe _ hlt
      simp [hsafe.1, hsafe.2.1, hsafe.2.2.1, hsafe.2.2.2.1]
  unfold csvNeedsQuote
  rw [h3, h1]
  simp only [Bool.false_or, Bool.or_false]
  rw [fmt2_toList]
  by_cases hq : q < 0
  · rw [if_pos hq]
    simp only [List.cons_append, List.append_assoc]
    decide
  · rw [if_neg hq, hnat]
    simp only [List.nil_append, List.cons_append, List.append_assoc]
    have hsafe := digitChar_safe a ha
    simp [hsafe.2.2.2.2.1, hsafe.2.2.2.2.2.1, hsafe.2.2.2.2.2.2.1, hsafe.2.2.2.2.2.2.2,
      hsafe.2.2.1, hsafe.2.2.2.1]

theorem csvField_fmt2 (q : ℚ) : csvField (fmt2 q) = fmt2 q := by
  unfold csvField
  rw [fmt2_noQuote]
  rfl

theorem csvField_key (H : Nat) : csvField (keyOfHourIndex H) = keyOfHourIndex H := by
  unfold csvField keyOfHourIndex
  rw [keyChars_noQuote]
  rfl

theorem intercalate3 (a b c : String) :
    String.intercalate "," [a, b, c] = a ++ "," ++ b ++ "," ++ c := rfl

/-- Every bucket string in the output comes from some record's `localHour`. -/
theorem mem_aggregate_bucket (recs : List Record) (row : AggRow)
    (hrow : row ∈ aggregate recs) : ∃ t, row.bucket = hourKey t := by
  obtain ⟨k, hk, rfl⟩ := List.mem_map.mp hrow
  have hk' : k ∈ (recs.map hourKeyR).dedup :=
    (List.Perm.mem_iff (List.perm_insertionSort _ _)).mp hk
  obtain ⟨r, hr, rfl⟩ := List.mem_map.mp (List.mem_dedup.mp hk')
  exact ⟨r.updatedAt, rfl⟩

/-! ## Claim C5: CSV file name, header and row format -/

/-- C5: the CSV sink creates `measurements_<YYYY-MM-DD>.csv` for the run
date, writes the exact header first, then one row per AggregateRow with the
bucket string, the average temperature and the average humidity in that
order, each average formatted to 2 decimal places; on the spec's example
values the formatting gives `70.12` and `40.33` (round half to even, Go's
`%.2f`). -/
theorem csv_output_format (start stop : Int) (recs : List Record) (y m d : Nat)
    (row : AggRow) (hrow : row ∈ aggregate (transferSelect start stop recs)) :
    (csvMainRun start stop recs y m d).fileName
        = "measurements_" ++ String.mk (dateChars y m d) ++ ".csv" ∧
      (csvMainRun start stop recs y m d).lines
        = "measurement_date_time,temperature_F,humidity_percent" ::
          (aggregate (transferSelect start stop recs)).map
            (fun r => csvLine [r.bucket, fmt2 r.avgTemperature, fmt2 r.avgHumidity]) ∧
      csvLine [row.bucket, fmt2 row.avgTemperature, fmt2 row.avgHumidity]
        = row.bucket ++ "," ++ fmt2 row.avgTemperature ++ "," ++ fmt2 row.avgHumidity ∧
      fmt2 70.125 = "70.12" ∧ fmt2 40.333 = "40.33" := by
  refine ⟨rfl, ?_, ?_, ?_, ?_⟩
  · have hh : csvLine csvHeader
        = "measurement_date_time,temperature_F,humidity_percent" := by decide
    show csvLine csvHeader :: _ = _
    rw [hh]
  · obtain ⟨t, hb⟩ := mem_aggregate_bucket _ _ hrow
    unfold csvLine
    rw [List.map_cons, List.map_cons, List.map_cons, List.map_nil]
    rw [hb]
    show String.intercalate ","
      [csvField (keyOfHourIndex (chicagoHourIndex t)), csvField (fmt2 row.avgTemperature),
        csvField (fmt2 row.avgHumidity)] = _
    rw [csvField_key, csvField_fmt2, csvField_fmt2, intercalate3]
    rfl
  · have h1 : roundHalfEven ((70.125 : ℚ) * 100) = 7012 := by
      norm_num [roundHalfEven]
    unfold fmt2
    rw [h1, if_neg (by norm_num : ¬ ((70.125 : ℚ) < 0))]
    norm_num
    simp [natStr, natChars]
    decide
  · have h1 : roundHalfEven ((40.333 : ℚ) * 100) = 4033 := by
      norm_num [roundHalfEven]
    unfold fmt2
    rw [h1, if_neg (by norm_num : ¬ ((40.333 : ℚ) < 0))]
    norm_num
    simp [natStr, natChars]
    decide

/-- Witness for C5: a one-record run dated 2020-05-01 has the expected file
name, and the spec's example values format to `70.12` and `40.33`. -/
theorem csv_output_format_witness :
    (csvMainRun 1588312740 1588312800 [⟨1, 1588312740, 70.125, 40.333⟩] 2020 5 1).fileName
        = "measurements_" ++ String.mk (dateChars 2020 5 1) ++ ".csv" ∧
      fmt2 70.125 = "70.12" ∧ fmt2 40.333 = "40.33" := by
  have hkeys : sortedKeys [(⟨1, 1588312740, 70.125, 40.333⟩ : Record)]
      = [hourKey 1588312740] := by decide
  have hmem : (⟨hourKey 1588312740,
      avgOf (fun r => r.humidity)
        (bucketRecords [⟨1, 1588312740, 70.125, 40.333⟩] (hourKey 1588312740)),
      avgOf (fun r => r.temperature)
        (bucketRecords [⟨1, 1588312740, 70.125, 40.333⟩] (hourKey 1588312740))⟩ : AggRow)
      ∈ aggregate (transferSelect 1588312740 1588312800
          [⟨1, 1588312740, 70.125, 40.333⟩]) := by
    have hsel : transferSelect 1588312740 1588312800
        [(⟨1, 1588312740, 70.125, 40.333⟩ : Record)]
        = [⟨1, 1588312740, 70.125, 40.333⟩] := rfl
    rw [hsel]
    unfold aggregate
    rw [hkeys]
    exact List.mem_singleton.mpr rfl
  obtain ⟨h1, h2, h3, h4, h5⟩ := csv_output_format 1588312740 1588312800
    [⟨1, 1588312740, 70.125, 40.333⟩] 2020 5 1 _ hmem
  exact ⟨h1, h4, h5⟩

/-- C10: when the day's aggregation is empty, the CSV run still creates the
file, writes exactly the header line, and reports success — no rows and no
error. -/
theorem csv_empty_aggregation (start stop : Int) (recs : List Record) (y m d : Nat)
    (hempty : aggregate (transferSelect start stop recs) = []) :
    csvMainRun start stop recs y m d
      = ⟨csvFileName y m d,
          ["measurement_date_time,temperature_F,humidity_percent"],
          "Data successfully written to " ++ csvFileName y m d⟩ := by
  unfold csvMainRun
  rw [hempty]
  have hh : csvLine csvHeader
      = "measurement_date_time,temperature_F,humidity_percent" := by decide
  rw [List.map_nil, hh]

/-- Witness for C10: an empty collection yields an empty aggregation, and the
run writes only the header. -/
theorem csv_empty_aggregation_witness :
    aggregate (transferSelect 0 10 ([] : List Record)) = [] ∧
      csvMainRun 0 10 [] 2024 1 2
        = ⟨csvFileName 2024 1 2,
            ["measurement_date_time,temperature_F,humidity_percent"],
            "Data successfully written to " ++ csvFileName 2024 1 2⟩ :=
  ⟨rfl, csv_empty_aggregation 0 10 [] 2024 1 2 rfl⟩
